import Mathlib

/-!
Verification development for the dependency-resolution and binary-identity
engine of the conan package manager, against its design specification.

The repository slice under verification contains the CLI dispatcher
(conans/cli/cli.py, embedded below as `cliRun` and the exit-code
constants) and the integration tests of the core engine
(conans/test/integration/package_id/test_validate.py).  The core engine
itself (configuration model, identity calculator, validation evaluator,
compatibility explorer, binary status evaluator) is not part of the
slice, so those parts are modelled from the specification, each such
definition carrying a doc comment starting with "Modelled from the spec:".
-/

/-! ## Exit codes (conans/cli/cli.py, docstring of main, and exit_codes imports) -/

/-- Exit code 0: success (cli.py docstring of main). -/
def SUCCESS : Int := 0

/-- Exit code 1: general ConanException error (cli.py docstring of main). -/
def ERROR_GENERAL : Int := 1

/-- Exit code 6: invalid configuration (cli.py docstring of main; imported
from conans.cli.exit_codes and asserted by test_validate.py). -/
def ERROR_INVALID_CONFIGURATION : Int := 6

/-- Modelled from the spec: the exit-codes module is not in the slice; the
dedicated code for ConanInvalidSystemRequirements, distinct from the codes
listed in the docstring of main (0..6). -/
def ERROR_INVALID_SYSTEM_REQUIREMENTS : Int := 7

/-! ## Outcome of running one command (the exception surface of
`command.run` inside Cli.run, cli.py lines 155-177) -/

/-- The possible outcomes of executing a dispatched command, as
distinguished by the except-clauses of Cli.run: normal return, SystemExit
carrying its own code, ConanInvalidConfiguration,
ConanInvalidSystemRequirements, ConanException, or any other unexpected
exception. -/
inductive CommandOutcome where
  | success
  | systemExit (code : Int)
  | invalidConfiguration (msg : String)
  | invalidSystemRequirements (msg : String)
  | conanException (msg : String)
  | otherException (msg : String)
deriving DecidableEq, Repr

/-- Embedding of Cli.run (cli.py lines 125-179).  `commands` is the set of
registered command names (self._commands), `args` the argument list
(args[0] in the source), and `outcome` the behaviour of the dispatched
command (command.run).  Empty arguments print the command summary and
return SUCCESS; an unregistered first token is checked against the
version and help flags (returning SUCCESS) before raising ConanException,
caught by the outer handler as ERROR_GENERAL; for a registered command the
except-clauses map the outcome to the exit code. -/
def cliRun (commands : List String) (args : List String)
    (outcome : String → List String → CommandOutcome) : Int :=
  match args with
  | [] => SUCCESS
  | cmd :: rest =>
    if commands.contains cmd then
      match outcome cmd rest with
      | .success => SUCCESS
      | .systemExit code => code
      | .invalidConfiguration _ => ERROR_INVALID_CONFIGURATION
      | .invalidSystemRequirements _ => ERROR_INVALID_SYSTEM_REQUIREMENTS
      | .conanException _ => ERROR_GENERAL
      | .otherException _ => ERROR_GENERAL
    else if cmd = "-v" ∨ cmd = "--version" then SUCCESS
    else if cmd = "-h" ∨ cmd = "--help" then SUCCESS
    else ERROR_GENERAL

/-! ## Configuration model (spec section 4.1) -/

/-- Modelled from the spec: a ConfigurationModel is an ordered mapping of
setting/option name to value, with dotted keys for nested settings; the
configuration-model component is not in the slice. -/
abbrev Model : Type := List (String × String)

/-- Modelled from the spec: set(key, value) on a ConfigurationModel;
replaces the value of an existing key in place, else appends the pair. -/
def setKey (k v : String) : Model → Model
  | [] => [(k, v)]
  | (k0, v0) :: rest => if k0 = k then (k, v) :: rest else (k0, v0) :: setKey k v rest

/-- Modelled from the spec: remove(key) on a ConfigurationModel; drops the
field, leaving the order of the retained fields unchanged. -/
def removeField (k : String) (m : Model) : Model :=
  m.filter (fun kv => kv.1 ≠ k)

/-- Modelled from the spec: get(key) on a ConfigurationModel; the value of
the field, or absent. -/
def getKey (k : String) (m : Model) : Option String :=
  (m.find? (fun kv => kv.1 = k)).map Prod.snd

/-! ## Identity calculator (spec section 4.3) -/

/-- Modelled from the spec: an operation of the package-id customization
hook run before hashing: remove one field, or clear the whole model
(the header-only collapse). -/
inductive PkgIdOp where
  | removeKey (key : String)
  | clearAll
deriving DecidableEq, Repr

/-- Modelled from the spec: apply one customization operation to a
ConfigurationModel. -/
def applyOp (m : Model) (op : PkgIdOp) : Model :=
  match op with
  | .removeKey k => removeField k m
  | .clearAll => []

/-- Modelled from the spec: apply the ordered list of customization
operations of the package-id hook, producing the pruned model that is
hashed. -/
def applyOps (ops : List PkgIdOp) (m : Model) : Model :=
  ops.foldl applyOp m

/-- Modelled from the spec: a PackageID is a fixed-width hash together with
the ordered list of contributing (field, value) pairs that produced it and
the dependency IDs embedded in the hash input; two PackageIDs are equal
iff their contributing pairs and dependency contributions are equal. -/
structure PackageID where
  contrib : List (String × String)
  depIds : List String
deriving DecidableEq, Repr

/-- Modelled from the spec: the 160-bit width of the hash (hex digests in
the tests are 40 hex characters). -/
def hashWidth : Nat := 2 ^ 160

/-- Modelled from the spec: deterministic string hashing used by the fixed,
versioned hashing scheme. -/
def strHash (s : String) : Nat :=
  s.data.foldl (fun h c => (h * 33 + c.toNat) % hashWidth) 5381

/-- Modelled from the spec: fold one contributing (field, value) pair into
the hash state. -/
def pairHash (h : Nat) (kv : String × String) : Nat :=
  ((h * 131 + strHash kv.1) * 131 + strHash kv.2) % hashWidth

/-- Modelled from the spec: the fixed-width hash of a PackageID, a pure
function of the contributing pairs and the embedded dependency IDs. -/
def pidHashNat (p : PackageID) : Nat :=
  ((p.contrib.foldl pairHash 7) * 131
    + p.depIds.foldl (fun h d => (h * 131 + strHash d) % hashWidth) 11) % hashWidth

/-- Modelled from the spec: the hex digest string rendering of the hash of
a PackageID (output ID format). -/
def hexDigest (p : PackageID) : String :=
  (Nat.toDigits 16 (pidHashNat p)).asString

/-- Modelled from the spec: the identity calculator; the PackageID of a
node is computed from the pruned ConfigurationModel (after the package-id
customization hook) and the IDs of its dependencies. -/
def computePackageId (ops : List PkgIdOp) (m : Model) (depIds : List String) : PackageID :=
  ⟨applyOps ops m, depIds⟩

/-- Modelled from the spec: the hashing scheme is fixed and versioned, so
the ID computation draws nothing from the ambient process run; a run is
represented by an arbitrary token that the computation ignores. -/
def computePackageIdInRun (run : Nat) (ops : List PkgIdOp) (m : Model)
    (depIds : List String) : PackageID :=
  let _ := run
  computePackageId ops m depIds

/-- Modelled from the spec: the unknown-dependency mode governing how
dependency IDs contribute to a dependent hash input: full package mode
requires the full transitive ID match; ignore mode drops the dependency
contribution. -/
inductive UnknownDepMode where
  | fullPackageMode
  | ignoreMode
deriving DecidableEq, Repr

/-- Modelled from the spec: the dependency contribution to the hash input
under the active unknown-dependency mode. -/
def depContribution (mode : UnknownDepMode) (depIds : List String) : List String :=
  match mode with
  | .fullPackageMode => depIds
  | .ignoreMode => []

/-! ## Validation evaluator (spec section 4.4) -/

/-- Modelled from the spec: the possible outcomes of running the
user-defined validate hook on a configuration: it passes silently, it
signals InvalidConfiguration with a reason, or it raises any other error
(a HookFailure, fatal to the whole resolution). -/
inductive HookOutcome where
  | passes
  | invalidConfiguration (reason : String)
  | crashes (msg : String)
deriving DecidableEq, Repr

/-- Modelled from the spec: the binary status of a node, terminal per node
per resolution pass. -/
inductive BinaryStatus where
  | build
  | cache
  | download
  | missing
  | invalid (reason : String)
  | skip
deriving DecidableEq, Repr

/-- Modelled from the spec: the validation evaluator classifies the hook
outcome: a pass keeps the node valid, InvalidConfiguration becomes a
per-node recorded reason (never aborting the resolution), any other hook
error aborts the whole resolution. -/
def evalValidation (outcome : HookOutcome) : Except String (Option String) :=
  match outcome with
  | .passes => .ok none
  | .invalidConfiguration r => .ok (some r)
  | .crashes msg => .error msg

/-! ## Binary status evaluator (spec section 4.6) -/

/-- Modelled from the spec: the binary status state machine for one node
and one configuration.  An explicit Invalid short-circuits all other
checks; otherwise a local cache hit gives Cache, a remote hit with build
not forced gives Download, a build-policy match gives Build, and none of
the above gives Missing. -/
def evalBinaryStatus (invalidReason : Option String)
    (localHit remoteHit policyMatch : Bool) : BinaryStatus :=
  match invalidReason with
  | some r => .invalid r
  | none =>
    if localHit then .cache
    else if remoteHit && !policyMatch then .download
    else if policyMatch then .build
    else .missing

/-! ## Compatibility explorer (spec section 4.5) -/

/-- Modelled from the spec: a CompatibilityCandidate is a set of field
substitutions producing an alternate ConfigurationModel; list order is the
priority order. -/
abbrev CompatCandidate : Type := List (String × String)

/-- Modelled from the spec: apply the field substitutions of a candidate
to the node ConfigurationModel, yielding the candidate model. -/
def applySubsts (subs : CompatCandidate) (m : Model) : Model :=
  subs.foldl (fun acc kv => setKey kv.1 kv.2 acc) m

/-- Modelled from the spec: the result of a successful compatibility
search: the selected candidate ID becomes the effective PackageID, and the
fallback mapping from the requested ID to the selected candidate ID is
recorded for reporting. -/
structure CompatSelection where
  effectiveId : PackageID
  fallback : PackageID × PackageID
deriving DecidableEq, Repr

/-- Modelled from the spec: the ordered compatibility search.  For each
candidate in order: recompute the PackageID under the candidate model,
re-run the validation evaluator on the candidate model (skipping
candidates that are themselves Invalid, aborting on a hook crash), query
the store for a binary for the candidate ID, and select the first
candidate that is valid and has an existing binary. -/
def exploreCompat (hook : Model → HookOutcome) (store : PackageID → Bool)
    (ops : List PkgIdOp) (deps : List String) (requestedId : PackageID)
    (m : Model) : List CompatCandidate → Except String (Option CompatSelection)
  | [] => .ok none
  | c :: rest =>
    let cm := applySubsts c m
    let cid := computePackageId ops cm deps
    match hook cm with
    | .crashes msg => .error msg
    | .invalidConfiguration _ => exploreCompat hook store ops deps requestedId m rest
    | .passes =>
      if store cid then .ok (some ⟨cid, (requestedId, cid)⟩)
      else exploreCompat hook store ops deps requestedId m rest

/-! ## Per-node resolution pipeline (spec sections 4.3 to 4.6) -/

/-- Modelled from the spec: the annotated result for one node: its binary
status, its effective PackageID for installation purposes, and the
recorded compatibility fallback mapping when one was used. -/
structure NodeResult where
  status : BinaryStatus
  effectiveId : PackageID
  fallback : Option (PackageID × PackageID)
deriving DecidableEq, Repr

/-- Modelled from the spec: the per-node pipeline combining the identity
calculator, the validation evaluator, the binary status evaluator and the
compatibility explorer.  A hook crash aborts the whole resolution.  A node
whose primary configuration is Invalid is Invalid when building is forced
for it; otherwise the compatibility explorer may rescue it with a
candidate binary.  A valid node takes Cache on a local hit, Download on a
remote hit with build not forced, Build on a build-policy match, and
otherwise consults the compatibility explorer, remaining Missing when no
candidate matches. -/
def resolveNode (hook : Model → HookOutcome) (cands : List CompatCandidate)
    (localE remoteE : PackageID → Bool) (forceBuild : Bool)
    (ops : List PkgIdOp) (m : Model) (deps : List String) :
    Except String NodeResult :=
  let primaryId := computePackageId ops m deps
  let store := fun pid => localE pid || remoteE pid
  match hook m with
  | .crashes msg => .error msg
  | .invalidConfiguration r =>
    if forceBuild then .ok ⟨.invalid r, primaryId, none⟩
    else
      match exploreCompat hook store ops deps primaryId m cands with
      | .error msg => .error msg
      | .ok (some sel) =>
        .ok ⟨if localE sel.effectiveId then .cache else .download,
             sel.effectiveId, some sel.fallback⟩
      | .ok none => .ok ⟨.invalid r, primaryId, none⟩
  | .passes =>
    if localE primaryId then .ok ⟨.cache, primaryId, none⟩
    else if remoteE primaryId && !forceBuild then .ok ⟨.download, primaryId, none⟩
    else if forceBuild then .ok ⟨.build, primaryId, none⟩
    else
      match exploreCompat hook store ops deps primaryId m cands with
      | .error msg => .error msg
      | .ok (some sel) =>
        .ok ⟨if localE sel.effectiveId then .cache else .download,
             sel.effectiveId, some sel.fallback⟩
      | .ok none => .ok ⟨.missing, primaryId, none⟩

/-! ## Graph-level resolution outcome (spec sections 6, 7 and 8) -/

/-- Modelled from the spec: the per-node record the reporting sink needs
for graph-wide status evaluation: the reference, the reason recorded when
the validate hook signalled InvalidConfiguration on the requested
configuration (none when it passed), the store hits for the node ID, the
build-policy match, and the indices of its dependencies in the graph
node list. -/
structure DepNode where
  ref : String
  validation : Option String
  localHit : Bool
  remoteHit : Bool
  policyMatch : Bool
  deps : List Nat
deriving DecidableEq, Repr

/-- Modelled from the spec: graph-wide status assignment matching the
full-package-mode integration test: each node takes the status the binary
status evaluator assigns to its own configuration; a dependent of an
Invalid node keeps its own status (it remains individually buildable) and
the Invalid dependency is reported through the aggregate set instead. -/
def graphStatuses (g : List DepNode) : List BinaryStatus :=
  g.map (fun n => evalBinaryStatus n.validation n.localHit n.remoteHit n.policyMatch)

/-- Modelled from the spec: the aggregate invalid-packages set: the
references that cannot exist for this configuration, with their
reasons. -/
def invalidPackages (g : List DepNode) : List (String × String) :=
  g.filterMap (fun n => n.validation.map (fun r => (n.ref, r)))

/-- The header of the aggregate invalid-packages report asserted by
test_validate_package_id_mode. -/
def invalidPackagesMessage : String :=
  "There are invalid packages (packages that cannot exist for this configuration)"

/-- Modelled from the spec: the outcome a completed resolution surfaces to
the caller: ConanInvalidConfiguration when the graph contains at least one
Invalid node for the requested top-level configuration, success
otherwise. -/
def resolutionOutcome (g : List DepNode) : CommandOutcome :=
  if (invalidPackages g).isEmpty then .success
  else .invalidConfiguration invalidPackagesMessage

/-- Modelled from the spec: the public result of the core distinguishes a
resolution that is fatal to produce a graph at all from a resolution that
completes with a graph. -/
inductive CoreResult where
  | fatal (msg : String)
  | resolved (g : List DepNode)
deriving DecidableEq, Repr

/-- Modelled from the spec: the caller maps the core result to the command
outcome raised to Cli.run: a fatal failure raises ConanException, a
completed graph raises ConanInvalidConfiguration exactly when it contains
an Invalid node. -/
def outcomeOfCore : CoreResult → CommandOutcome
  | .fatal msg => .conanException msg
  | .resolved g => resolutionOutcome g

/-! ## Concrete fixtures from test_validate.py -/

/-- The validate hook of Pkg in test_validate_create and
test_validate_compatible: raise ConanInvalidConfiguration when the os
setting is Windows. -/
def pkgValidateHook : Model → HookOutcome := fun m =>
  if getKey "os" m = some "Windows" then
    .invalidConfiguration "Windows not supported"
  else .passes

/-- A binary store with no binaries. -/
def noStore : PackageID → Bool := fun _ => false

/-- A binary store holding a binary for every ID. -/
def allStore : PackageID → Bool := fun _ => true

/-- A binary store holding exactly the binary created for os=Linux in
test_validate_compatible. -/
def linuxOnlyStore : PackageID → Bool := fun p => p.contrib == [("os", "Linux")]

/-- The graph of test_validate_package_id_mode under full package mode:
dep/0.1 is Invalid for os=Windows (reason Windows not supported) and
pkg/0.1 depends on it, validates cleanly, has no binary in any store, and
is selected for building by the create command. -/
def pkgIdModeGraph : List DepNode :=
  [⟨"dep/0.1", some "Windows not supported", false, false, true, []⟩,
   ⟨"pkg/0.1", none, false, false, true, [0]⟩]

/-! ## Claim theorems -/

/-- Helper: the compatibility search completes (in the Except sense) when
no candidate crashes the validate hook. -/
theorem exploreCompat_ok_of_no_crash (hook : Model → HookOutcome)
    (store : PackageID → Bool) (ops : List PkgIdOp) (deps : List String)
    (req : PackageID) (m : Model) (cands : List CompatCandidate)
    (hnc : ∀ c ∈ cands, ∀ msg, hook (applySubsts c m) ≠ HookOutcome.crashes msg) :
    ∃ o, exploreCompat hook store ops deps req m cands = Except.ok o := by
  induction cands with
  | nil => exact ⟨none, rfl⟩
  | cons c rest ih =>
    have hc := hnc c (List.mem_cons_self c rest)
    have hrest : ∀ c2 ∈ rest, ∀ msg, hook (applySubsts c2 m) ≠ HookOutcome.crashes msg :=
      fun c2 hc2 => hnc c2 (List.mem_cons_of_mem c hc2)
    cases hhook : hook (applySubsts c m) with
    | crashes msg => exact absurd hhook (hc msg)
    | invalidConfiguration r =>
      obtain ⟨o, ho⟩ := ih hrest
      exact ⟨o, by simp [exploreCompat, hhook, ho]⟩
    | passes =>
      by_cases hs : store (computePackageId ops (applySubsts c m) deps) = true
      · exact ⟨some ⟨computePackageId ops (applySubsts c m) deps,
          (req, computePackageId ops (applySubsts c m) deps)⟩,
          by simp [exploreCompat, hhook, hs]⟩
      · obtain ⟨o, ho⟩ := ih hrest
        exact ⟨o, by simp [exploreCompat, hhook, hs, ho]⟩

/-- C1: for every node, computing the PackageID twice from an unchanged
ConfigurationModel and unchanged dependency PackageIDs yields the
identical hex-digest ID, and the same pruned configuration yields the
same ID across separate process runs. -/
theorem packageId_deterministic (r1 r2 : Nat) (ops : List PkgIdOp) (m m2 : Model)
    (deps : List String) (hpr : applyOps ops m = applyOps ops m2) :
    computePackageIdInRun r1 ops m deps = computePackageIdInRun r2 ops m2 deps ∧
    hexDigest (computePackageIdInRun r1 ops m deps)
      = hexDigest (computePackageIdInRun r2 ops m2 deps) := by
  have h : computePackageIdInRun r1 ops m deps = computePackageIdInRun r2 ops m2 deps := by
    simp [computePackageIdInRun, computePackageId, hpr]
  exact ⟨h, by rw [h]⟩

/-- Witness for C1 at a concrete configuration in two distinct runs. -/
theorem packageId_deterministic_witness :
    computePackageIdInRun 1 [] [("os", "Linux")] ["abc"]
      = computePackageIdInRun 2 [] [("os", "Linux")] ["abc"] ∧
    hexDigest (computePackageIdInRun 1 [] [("os", "Linux")] ["abc"])
      = hexDigest (computePackageIdInRun 2 [] [("os", "Linux")] ["abc"]) :=
  packageId_deterministic 1 2 [] [("os", "Linux")] [("os", "Linux")] ["abc"] rfl

/-- C9: clearing the whole ConfigurationModel before hashing makes the
PackageID invariant to any further settings changes; removing one
specific field collapses requests differing only in that field to one
PackageID while differences in other retained fields still produce
distinct IDs. -/
theorem packageId_pruning (m1 m2 : Model) (deps : List String) (k : String) :
    computePackageId [PkgIdOp.clearAll] m1 deps
      = computePackageId [PkgIdOp.clearAll] m2 deps ∧
    (removeField k m1 = removeField k m2 →
      computePackageId [PkgIdOp.removeKey k] m1 deps
        = computePackageId [PkgIdOp.removeKey k] m2 deps) ∧
    (removeField k m1 ≠ removeField k m2 →
      computePackageId [PkgIdOp.removeKey k] m1 deps
        ≠ computePackageId [PkgIdOp.removeKey k] m2 deps) := by
  refine ⟨by simp [computePackageId, applyOps, applyOp], ?_, ?_⟩
  · intro h
    simp [computePackageId, applyOps, applyOp, h]
  · intro h hcontra
    apply h
    have := congrArg PackageID.contrib hcontra
    simpa [computePackageId, applyOps, applyOp] using this

/-- Witness for C9: removing the os field collapses two requests that
differ only in os, while a difference in the retained arch field keeps
the IDs distinct, and clearing always collapses. -/
theorem packageId_pruning_witness :
    computePackageId [PkgIdOp.clearAll] [("os", "Windows")] []
      = computePackageId [PkgIdOp.clearAll] [("os", "Linux")] [] ∧
    computePackageId [PkgIdOp.removeKey "os"] [("os", "Windows"), ("arch", "x86")] []
      = computePackageId [PkgIdOp.removeKey "os"] [("os", "Linux"), ("arch", "x86")] [] ∧
    computePackageId [PkgIdOp.removeKey "os"] [("os", "Windows"), ("arch", "x86")] []
      ≠ computePackageId [PkgIdOp.removeKey "os"] [("os", "Windows"), ("arch", "armv8")] [] :=
  ⟨(packageId_pruning [("os", "Windows")] [("os", "Linux")] [] "os").1,
   (packageId_pruning [("os", "Windows"), ("arch", "x86")]
      [("os", "Linux"), ("arch", "x86")] [] "os").2.1 (by decide),
   (packageId_pruning [("os", "Windows"), ("arch", "x86")]
      [("os", "Windows"), ("arch", "armv8")] [] "os").2.2 (by decide)⟩

/-- C10 counterexample: the token -v is not a registered command, yet
Cli.run returns SUCCESS for it, not ERROR_GENERAL, refuting the claim
that every unknown first command returns the general code. -/
theorem cliRun_unknown_flag_counterexample :
    cliRun ["install", "create"] ["-v"] (fun _ _ => CommandOutcome.success) = SUCCESS ∧
    List.contains ["install", "create"] "-v" = false ∧
    SUCCESS ≠ ERROR_GENERAL := by
  decide

/-- C10 (amended): Cli.run always returns an exit code: empty arguments
print the command summary and return SUCCESS; an unregistered first token
that is one of the version or help flags returns SUCCESS, any other
unknown first command returns ERROR_GENERAL; a registered command returns
SUCCESS on success, the own code of a SystemExit, ERROR_INVALID_CONFIGURATION
for ConanInvalidConfiguration, the dedicated code for
ConanInvalidSystemRequirements, and ERROR_GENERAL for ConanException and
for any other unexpected exception. -/
theorem cliRun_exit_codes (commands : List String) (cmd : String) (rest : List String)
    (outF : String → List String → CommandOutcome) (code : Int) (msg : String) :
    cliRun commands [] outF = SUCCESS ∧
    (commands.contains cmd = false →
      ((cmd = "-v" ∨ cmd = "--version" ∨ cmd = "-h" ∨ cmd = "--help") →
        cliRun commands (cmd :: rest) outF = SUCCESS) ∧
      (cmd ≠ "-v" → cmd ≠ "--version" → cmd ≠ "-h" → cmd ≠ "--help" →
        cliRun commands (cmd :: rest) outF = ERROR_GENERAL)) ∧
    (commands.contains cmd = true →
      (outF cmd rest = CommandOutcome.success →
        cliRun commands (cmd :: rest) outF = SUCCESS) ∧
      (outF cmd rest = CommandOutcome.systemExit code →
        cliRun commands (cmd :: rest) outF = code) ∧
      (outF cmd rest = CommandOutcome.invalidConfiguration msg →
        cliRun commands (cmd :: rest) outF = ERROR_INVALID_CONFIGURATION) ∧
      (outF cmd rest = CommandOutcome.invalidSystemRequirements msg →
        cliRun commands (cmd :: rest) outF = ERROR_INVALID_SYSTEM_REQUIREMENTS) ∧
      (outF cmd rest = CommandOutcome.conanException msg →
        cliRun commands (cmd :: rest) outF = ERROR_GENERAL) ∧
      (outF cmd rest = CommandOutcome.otherException msg →
        cliRun commands (cmd :: rest) outF = ERROR_GENERAL)) := by
  refine ⟨rfl, ?_, ?_⟩
  · intro hc
    have hc2 : cmd ∉ commands := by simpa using hc
    constructor
    · rintro (h | h | h | h) <;> subst h <;> simp [cliRun, hc2]
    · intro h1 h2 h3 h4
      simp [cliRun, hc2, h1, h2, h3, h4]
  · intro hc
    have hc2 : cmd ∈ commands := by simpa using hc
    refine ⟨?_, ?_, ?_, ?_, ?_, ?_⟩ <;> intro h <;> simp [cliRun, hc2, h]

/-- Witness for C10: a registered command raising
ConanInvalidConfiguration exits 6, and an unknown command exits 1. -/
theorem cliRun_exit_codes_witness :
    cliRun ["install"] ["install"]
      (fun _ _ => CommandOutcome.invalidConfiguration "bad") = ERROR_INVALID_CONFIGURATION ∧
    cliRun ["install"] ["oops"] (fun _ _ => CommandOutcome.success) = ERROR_GENERAL :=
  ⟨((cliRun_exit_codes ["install"] "install" []
      (fun _ _ => CommandOutcome.invalidConfiguration "bad") 0 "bad").2.2
        (by decide)).2.2.1 rfl,
   ((cliRun_exit_codes ["install"] "oops" []
      (fun _ _ => CommandOutcome.success) 0 "bad").2.1
        (by decide)).2 (by decide) (by decide) (by decide) (by decide)⟩

/-- C3: the caller maps a resolution that is fatal to produce a graph at
all to ERROR_GENERAL, and a resolution that completes with at least one
Invalid node for the requested top-level configuration to
ERROR_INVALID_CONFIGURATION (6), which is distinct from the general
code (1). -/
theorem core_exit_codes_distinguished (commands : List String) (cmd : String)
    (rest : List String) (res : CoreResult)
    (hcmd : commands.contains cmd = true) :
    (∀ msg, res = CoreResult.fatal msg →
      cliRun commands (cmd :: rest) (fun _ _ => outcomeOfCore res) = ERROR_GENERAL) ∧
    (∀ g, res = CoreResult.resolved g → (invalidPackages g).isEmpty = false →
      cliRun commands (cmd :: rest) (fun _ _ => outcomeOfCore res)
        = ERROR_INVALID_CONFIGURATION) ∧
    ERROR_INVALID_CONFIGURATION = 6 ∧ ERROR_GENERAL = 1 ∧
    ERROR_INVALID_CONFIGURATION ≠ ERROR_GENERAL := by
  have hcmd2 : cmd ∈ commands := by simpa using hcmd
  refine ⟨?_, ?_, rfl, rfl, by decide⟩
  · intro msg hres
    subst hres
    simp [cliRun, hcmd2, outcomeOfCore]
  · intro g hres hinv
    subst hres
    simp [cliRun, hcmd2, outcomeOfCore, resolutionOutcome, hinv]

/-- Witness for C3: a fatal resolution exits 1 and a completed graph with
an Invalid node exits 6. -/
theorem core_exit_codes_witness :
    cliRun ["create"] ["create"]
      (fun _ _ => outcomeOfCore (CoreResult.fatal "boom")) = ERROR_GENERAL ∧
    cliRun ["create"] ["create"]
      (fun _ _ => outcomeOfCore (CoreResult.resolved
        [⟨"pkg/0.1", some "Windows not supported", false, false, true, []⟩]))
      = ERROR_INVALID_CONFIGURATION :=
  ⟨(core_exit_codes_distinguished ["create"] "create" []
      (CoreResult.fatal "boom") (by decide)).1 "boom" rfl,
   (core_exit_codes_distinguished ["create"] "create" []
      (CoreResult.resolved
        [⟨"pkg/0.1", some "Windows not supported", false, false, true, []⟩])
      (by decide)).2.1 _ rfl (by decide)⟩

/-- C2: when the validate hook signals InvalidConfiguration with a reason
for the requested configuration, the validation evaluator records exactly
that reason, the binary status evaluator forces the status of that
configuration to Invalid with that reason, and the resolution completes
(no abort): the node pipeline returns a result, Invalid with the exact
hook reason whenever no compatibility fallback rescued the node. -/
theorem validate_invalid_marks_node (hook : Model → HookOutcome)
    (cands : List CompatCandidate) (localE remoteE : PackageID → Bool)
    (forceBuild : Bool) (ops : List PkgIdOp) (m : Model) (deps : List String)
    (r : String)
    (hinv : hook m = HookOutcome.invalidConfiguration r)
    (hnc : ∀ c ∈ cands, ∀ msg, hook (applySubsts c m) ≠ HookOutcome.crashes msg) :
    evalValidation (hook m) = Except.ok (some r) ∧
    evalBinaryStatus (some r) (localE (computePackageId ops m deps))
      (remoteE (computePackageId ops m deps)) forceBuild = BinaryStatus.invalid r ∧
    ∃ res, resolveNode hook cands localE remoteE forceBuild ops m deps = Except.ok res ∧
      (res.fallback = none → res.status = BinaryStatus.invalid r) := by
  refine ⟨by simp [evalValidation, hinv], by simp [evalBinaryStatus], ?_⟩
  obtain ⟨o, ho⟩ := exploreCompat_ok_of_no_crash hook
    (fun pid => localE pid || remoteE pid) ops deps
    (computePackageId ops m deps) m cands hnc
  cases forceBuild with
  | true =>
    exact ⟨⟨BinaryStatus.invalid r, computePackageId ops m deps, none⟩,
      by simp [resolveNode, hinv], fun _ => rfl⟩
  | false =>
    cases o with
    | none =>
      exact ⟨⟨BinaryStatus.invalid r, computePackageId ops m deps, none⟩,
        by simp [resolveNode, hinv, ho], fun _ => rfl⟩
    | some sel =>
      refine ⟨⟨if localE sel.effectiveId then BinaryStatus.cache else BinaryStatus.download,
        sel.effectiveId, some sel.fallback⟩, by simp [resolveNode, hinv, ho], ?_⟩
      intro hnone
      exact absurd hnone (by simp)

/-- Witness for C2 on the test_validate_create scenario: os=Windows with
no compatibility candidates. -/
theorem validate_invalid_marks_node_witness :
    evalValidation (pkgValidateHook [("os", "Windows")])
      = Except.ok (some "Windows not supported") ∧
    evalBinaryStatus (some "Windows not supported")
      (noStore (computePackageId [] [("os", "Windows")] []))
      (noStore (computePackageId [] [("os", "Windows")] [])) false
      = BinaryStatus.invalid "Windows not supported" ∧
    ∃ res, resolveNode pkgValidateHook [] noStore noStore false []
        [("os", "Windows")] [] = Except.ok res ∧
      (res.fallback = none → res.status = BinaryStatus.invalid "Windows not supported") :=
  validate_invalid_marks_node pkgValidateHook [] noStore noStore false []
    [("os", "Windows")] [] "Windows not supported" (by decide)
    (fun c hc => absurd hc (List.not_mem_nil c))

/-- Helper: the ordered compatibility search skips every leading
candidate that is itself Invalid or lacks an existing binary and selects
the first candidate that passes validation and has an existing binary. -/
theorem exploreCompat_first_match (hook : Model → HookOutcome)
    (store : PackageID → Bool) (ops : List PkgIdOp) (deps : List String)
    (req : PackageID) (m : Model) (pre : List CompatCandidate)
    (c1 : CompatCandidate) (cs : List CompatCandidate)
    (hpre : ∀ p ∈ pre,
      (∃ rr, hook (applySubsts p m) = HookOutcome.invalidConfiguration rr) ∨
      (hook (applySubsts p m) = HookOutcome.passes ∧
        store (computePackageId ops (applySubsts p m) deps) = false))
    (hval : hook (applySubsts c1 m) = HookOutcome.passes)
    (hex : store (computePackageId ops (applySubsts c1 m) deps) = true) :
    exploreCompat hook store ops deps req m (pre ++ c1 :: cs)
      = Except.ok (some ⟨computePackageId ops (applySubsts c1 m) deps,
          (req, computePackageId ops (applySubsts c1 m) deps)⟩) := by
  induction pre with
  | nil => simp [exploreCompat, hval, hex]
  | cons p rest ih =>
    have hrest : ∀ q ∈ rest,
        (∃ rr, hook (applySubsts q m) = HookOutcome.invalidConfiguration rr) ∨
        (hook (applySubsts q m) = HookOutcome.passes ∧
          store (computePackageId ops (applySubsts q m) deps) = false) :=
      fun q hq => hpre q (List.mem_cons_of_mem p hq)
    rcases hpre p (List.mem_cons_self p rest) with ⟨rr, hinv⟩ | ⟨hp, hs⟩
    · rw [List.cons_append]
      simp only [exploreCompat, hinv]
      exact ih hrest
    · rw [List.cons_append]
      simp only [exploreCompat, hp, hs]
      simpa using ih hrest

/-- C4: for every ordered candidate list, the first candidate that is
valid and has an existing binary is selected: every leading candidate
that is itself Invalid or has no binary is skipped and the selection is
the ID of the first valid candidate with a binary, regardless of the
remaining candidates (so with candidates C1 and C2 both valid with
existing binaries the selected effective ID is always C1), the fallback
mapping from the requested ID to the selected candidate ID is recorded,
and through the node pipeline the selected ID becomes the effective
PackageID of the node. -/
theorem compat_first_candidate_selected (hook : Model → HookOutcome)
    (localE remoteE : PackageID → Bool) (ops : List PkgIdOp) (deps : List String)
    (req : PackageID) (m : Model) (pre : List CompatCandidate)
    (c1 : CompatCandidate) (cs : List CompatCandidate)
    (hpre : ∀ p ∈ pre,
      (∃ rr, hook (applySubsts p m) = HookOutcome.invalidConfiguration rr) ∨
      (hook (applySubsts p m) = HookOutcome.passes ∧
        (localE (computePackageId ops (applySubsts p m) deps)
          || remoteE (computePackageId ops (applySubsts p m) deps)) = false))
    (hval : hook (applySubsts c1 m) = HookOutcome.passes)
    (hex : (localE (computePackageId ops (applySubsts c1 m) deps)
          || remoteE (computePackageId ops (applySubsts c1 m) deps)) = true) :
    exploreCompat hook (fun pid => localE pid || remoteE pid) ops deps req m
        (pre ++ c1 :: cs)
      = Except.ok (some ⟨computePackageId ops (applySubsts c1 m) deps,
          (req, computePackageId ops (applySubsts c1 m) deps)⟩) ∧
    (hook m = HookOutcome.passes →
      localE (computePackageId ops m deps) = false →
      remoteE (computePackageId ops m deps) = false →
      resolveNode hook (pre ++ c1 :: cs) localE remoteE false ops m deps
        = Except.ok ⟨if localE (computePackageId ops (applySubsts c1 m) deps)
              then BinaryStatus.cache else BinaryStatus.download,
            computePackageId ops (applySubsts c1 m) deps,
            some (computePackageId ops m deps,
                  computePackageId ops (applySubsts c1 m) deps)⟩) := by
  refine ⟨exploreCompat_first_match hook (fun pid => localE pid || remoteE pid)
    ops deps req m pre c1 cs hpre hval hex, ?_⟩
  intro hp hl hr
  have hsel := exploreCompat_first_match hook (fun pid => localE pid || remoteE pid)
    ops deps (computePackageId ops m deps) m pre c1 cs hpre hval hex
  simp [resolveNode, hp, hl, hr, hsel]

/-- Witness for C4: requesting os=Windows against the ordered candidates
[Windows itself (Invalid), Macos (valid, no binary), Linux (valid with a
binary)] skips the first two and selects the Linux candidate; and with
the valid primary configuration os=Macos and no primary binary the
pipeline ends on the Linux candidate ID with the fallback mapping
recorded. -/
theorem compat_first_candidate_selected_witness :
    exploreCompat pkgValidateHook (fun pid => linuxOnlyStore pid || noStore pid)
      [] [] (computePackageId [] [("os", "Windows")] []) [("os", "Windows")]
      ([[], [("os", "Macos")]] ++ [("os", "Linux")] :: [])
      = Except.ok (some ⟨computePackageId []
            (applySubsts [("os", "Linux")] [("os", "Windows")]) [],
          (computePackageId [] [("os", "Windows")] [],
           computePackageId [] (applySubsts [("os", "Linux")] [("os", "Windows")]) [])⟩) ∧
    resolveNode pkgValidateHook ([[], [("os", "FreeBSD")]] ++ [("os", "Linux")] :: [])
        linuxOnlyStore noStore false [] [("os", "Macos")] []
      = Except.ok ⟨if linuxOnlyStore (computePackageId []
              (applySubsts [("os", "Linux")] [("os", "Macos")]) [])
            then BinaryStatus.cache else BinaryStatus.download,
          computePackageId [] (applySubsts [("os", "Linux")] [("os", "Macos")]) [],
          some (computePackageId [] [("os", "Macos")] [],
                computePackageId [] (applySubsts [("os", "Linux")] [("os", "Macos")]) [])⟩ :=
  ⟨(compat_first_candidate_selected pkgValidateHook linuxOnlyStore noStore [] []
      (computePackageId [] [("os", "Windows")] []) [("os", "Windows")]
      [[], [("os", "Macos")]] [("os", "Linux")] []
      (by
        intro p hp
        simp at hp
        rcases hp with h | h
        · subst h
          exact Or.inl ⟨"Windows not supported", rfl⟩
        · subst h
          exact Or.inr ⟨rfl, rfl⟩)
      (by decide) (by decide)).1,
   (compat_first_candidate_selected pkgValidateHook linuxOnlyStore noStore [] []
      (computePackageId [] [("os", "Macos")] []) [("os", "Macos")]
      [[], [("os", "FreeBSD")]] [("os", "Linux")] []
      (by
        intro p hp
        simp at hp
        rcases hp with h | h
        · subst h
          exact Or.inr ⟨rfl, rfl⟩
        · subst h
          exact Or.inr ⟨rfl, rfl⟩)
      (by decide) (by decide)).2 (by decide) (by decide) (by decide)⟩

/-- C5: a compatibility candidate that itself fails validation is never
selected, even if a binary exists for its ID: whatever the search selects
is a candidate that passed validation and has an existing binary; and
when no candidate remains the node stays Missing for a valid primary
configuration, or Invalid when the primary configuration was invalid. -/
theorem compat_invalid_candidate_never_selected (hook : Model → HookOutcome)
    (store localE remoteE : PackageID → Bool) (ops : List PkgIdOp)
    (deps : List String) (req : PackageID) (m : Model)
    (cands : List CompatCandidate) :
    (∀ sel, exploreCompat hook store ops deps req m cands = Except.ok (some sel) →
      ∃ c ∈ cands, hook (applySubsts c m) = HookOutcome.passes ∧
        store (computePackageId ops (applySubsts c m) deps) = true ∧
        sel = ⟨computePackageId ops (applySubsts c m) deps,
               (req, computePackageId ops (applySubsts c m) deps)⟩) ∧
    (exploreCompat hook (fun pid => localE pid || remoteE pid) ops deps
        (computePackageId ops m deps) m cands = Except.ok none →
      (hook m = HookOutcome.passes →
        localE (computePackageId ops m deps) = false →
        remoteE (computePackageId ops m deps) = false →
        resolveNode hook cands localE remoteE false ops m deps
          = Except.ok ⟨BinaryStatus.missing, computePackageId ops m deps, none⟩) ∧
      (∀ r, hook m = HookOutcome.invalidConfiguration r →
        resolveNode hook cands localE remoteE false ops m deps
          = Except.ok ⟨BinaryStatus.invalid r, computePackageId ops m deps, none⟩)) := by
  constructor
  · induction cands with
    | nil => intro sel h; simp [exploreCompat] at h
    | cons c rest ih =>
      intro sel h
      cases hhook : hook (applySubsts c m) with
      | crashes msg => simp [exploreCompat, hhook] at h
      | invalidConfiguration r =>
        rw [exploreCompat, hhook] at h
        obtain ⟨c2, hc2, hrest⟩ := ih sel h
        exact ⟨c2, List.mem_cons_of_mem c hc2, hrest⟩
      | passes =>
        by_cases hs : store (computePackageId ops (applySubsts c m) deps) = true
        · rw [exploreCompat] at h
          simp [hhook, hs] at h
          exact ⟨c, List.mem_cons_self c rest, hhook, hs, h.symm⟩
        · rw [exploreCompat, hhook, if_neg hs] at h
          obtain ⟨c2, hc2, hrest⟩ := ih sel h
          exact ⟨c2, List.mem_cons_of_mem c hc2, hrest⟩
  · intro hnone
    constructor
    · intro hp hl hr
      simp [resolveNode, hp, hl, hr, hnone]
    · intro r hinv
      simp [resolveNode, hinv, hnone]

/-- Witness for C5 on the test_validate_compatible_also_invalid_fail
scenario: for os=Windows, build_type=Debug the Release candidate is still
os=Windows and thus invalid, so it is skipped although every binary
exists, and the node ends Invalid with the primary reason. -/
theorem compat_invalid_candidate_never_selected_witness :
    (∃ c ∈ [[("os", "Linux")]],
      pkgValidateHook (applySubsts c [("os", "Windows")]) = HookOutcome.passes ∧
      allStore (computePackageId [] (applySubsts c [("os", "Windows")]) []) = true ∧
      (⟨computePackageId [] (applySubsts [("os", "Linux")] [("os", "Windows")]) [],
        (computePackageId [] [("os", "Windows")] [],
         computePackageId [] (applySubsts [("os", "Linux")] [("os", "Windows")]) [])⟩
        : CompatSelection)
        = ⟨computePackageId [] (applySubsts c [("os", "Windows")]) [],
           (computePackageId [] [("os", "Windows")] [],
            computePackageId [] (applySubsts c [("os", "Windows")]) [])⟩) ∧
    resolveNode pkgValidateHook [[("build_type", "Release")]] allStore allStore
        false [] [("os", "Windows"), ("build_type", "Debug")] []
      = Except.ok ⟨BinaryStatus.invalid "Windows not supported",
          computePackageId [] [("os", "Windows"), ("build_type", "Debug")] [], none⟩ :=
  ⟨(compat_invalid_candidate_never_selected pkgValidateHook allStore allStore allStore
      [] [] (computePackageId [] [("os", "Windows")] []) [("os", "Windows")]
      [[("os", "Linux")]]).1
      ⟨computePackageId [] (applySubsts [("os", "Linux")] [("os", "Windows")]) [],
        (computePackageId [] [("os", "Windows")] [],
         computePackageId [] (applySubsts [("os", "Linux")] [("os", "Windows")]) [])⟩
      rfl,
   ((compat_invalid_candidate_never_selected pkgValidateHook allStore allStore allStore
      [] [] (computePackageId [] [("os", "Windows"), ("build_type", "Debug")] [])
      [("os", "Windows"), ("build_type", "Debug")]
      [[("build_type", "Release")]]).2 rfl).2
      "Windows not supported" (by decide)⟩

/-- C6: a node validated Invalid for its primary configuration is never
assigned Build by the pipeline, its outcome is Invalid with the hook
reason or a rescuing compatibility fallback, and the Invalid status
short-circuits the cache-hit, remote-hit and build-policy checks: under a
build policy forcing the build the result is Invalid regardless of any
store hit. -/
theorem invalid_never_silently_resolved (hook : Model → HookOutcome)
    (cands : List CompatCandidate) (localE remoteE : PackageID → Bool)
    (forceBuild : Bool) (ops : List PkgIdOp) (m : Model) (deps : List String)
    (r : String) (res : NodeResult)
    (hinv : hook m = HookOutcome.invalidConfiguration r)
    (hres : resolveNode hook cands localE remoteE forceBuild ops m deps
      = Except.ok res) :
    res.status ≠ BinaryStatus.build ∧
    (res.status = BinaryStatus.invalid r ∨ res.fallback ≠ none) ∧
    (forceBuild = true →
      res = ⟨BinaryStatus.invalid r, computePackageId ops m deps, none⟩) := by
  cases hf : forceBuild with
  | true =>
    subst hf
    rw [resolveNode, hinv] at hres
    simp at hres
    subst hres
    exact ⟨by simp, Or.inl rfl, fun _ => rfl⟩
  | false =>
    subst hf
    rw [resolveNode, hinv] at hres
    simp at hres
    cases hexp : exploreCompat hook
        (fun pid => localE pid || remoteE pid) ops deps
        (computePackageId ops m deps) m cands with
    | error msg => rw [hexp] at hres; simp at hres
    | ok o =>
      rw [hexp] at hres
      cases o with
      | none =>
        simp at hres
        subst hres
        exact ⟨by simp, Or.inl rfl, fun h => nomatch h⟩
      | some sel =>
        simp at hres
        subst hres
        refine ⟨?_, Or.inr (by simp), fun h => nomatch h⟩
        cases localE sel.effectiveId <;> simp

/-- Witness for C6 on the test_validate_compatible scenario with
--build=pkg*: os=Windows with a forced build stays Invalid although the
Linux candidate binary exists. -/
theorem invalid_never_silently_resolved_witness :
    (NodeResult.mk (BinaryStatus.invalid "Windows not supported")
        (computePackageId [] [("os", "Windows")] []) none).status
      ≠ BinaryStatus.build ∧
    ((NodeResult.mk (BinaryStatus.invalid "Windows not supported")
        (computePackageId [] [("os", "Windows")] []) none).status
      = BinaryStatus.invalid "Windows not supported" ∨
     (NodeResult.mk (BinaryStatus.invalid "Windows not supported")
        (computePackageId [] [("os", "Windows")] []) none).fallback ≠ none) ∧
    (true = true →
      NodeResult.mk (BinaryStatus.invalid "Windows not supported")
        (computePackageId [] [("os", "Windows")] []) none
      = ⟨BinaryStatus.invalid "Windows not supported",
         computePackageId [] [("os", "Windows")] [], none⟩) :=
  invalid_never_silently_resolved pkgValidateHook [[("os", "Linux")]]
    linuxOnlyStore noStore true [] [("os", "Windows")] [] "Windows not supported"
    ⟨BinaryStatus.invalid "Windows not supported",
     computePackageId [] [("os", "Windows")] [], none⟩ (by decide) rfl

/-- C7 counterexample, from the graph of test_validate_package_id_mode:
dep/0.1 (index 0) is Invalid, pkg/0.1 (index 1) depends on it and has no
compatibility search to rescue it, yet the status the test asserts for
pkg/0.1 is Build, not Invalid, refuting the propagation claim. -/
theorem invalid_propagation_counterexample :
    (graphStatuses pkgIdModeGraph).get? 0
      = some (BinaryStatus.invalid "Windows not supported") ∧
    (pkgIdModeGraph.get? 1).map DepNode.deps = some [0] ∧
    (graphStatuses pkgIdModeGraph).get? 1 = some BinaryStatus.build ∧
    ∀ s, BinaryStatus.build ≠ BinaryStatus.invalid s :=
  ⟨by decide, by decide, by decide, fun s h => nomatch h⟩

/-- C7 (amended): if node B is Invalid the resolution still completes and
is reported as the invalid-configuration outcome, with B and its reason
in the aggregate invalid-packages set; a dependent of B whose own
validation passed is not marked Invalid by propagation — it keeps the
status the binary status evaluator assigns to its own configuration,
which is never Invalid. -/
theorem invalid_dep_reported_not_propagated (g : List DepNode) (i j : Nat)
    (ni nj : DepNode) (r : String)
    (hi : g.get? i = some ni) (hj : g.get? j = some nj) (hdep : j ∈ ni.deps)
    (hval : ni.validation = none) (hjinv : nj.validation = some r) :
    (graphStatuses g).get? i
      = some (evalBinaryStatus none ni.localHit ni.remoteHit ni.policyMatch) ∧
    (∀ msg, evalBinaryStatus none ni.localHit ni.remoteHit ni.policyMatch
      ≠ BinaryStatus.invalid msg) ∧
    (nj.ref, r) ∈ invalidPackages g ∧
    resolutionOutcome g = CommandOutcome.invalidConfiguration invalidPackagesMessage := by
  have hmem : nj ∈ g := by
    have := List.get?_eq_some.mp hj
    obtain ⟨hlt, hget⟩ := this
    exact hget ▸ List.get_mem g j hlt
  have hinvmem : (nj.ref, r) ∈ invalidPackages g :=
    List.mem_filterMap.mpr ⟨nj, hmem, by simp [hjinv]⟩
  refine ⟨?_, ?_, hinvmem, ?_⟩
  · have hi2 : g[i]? = some ni := by
      rw [← List.get?_eq_getElem?]
      exact hi
    simp [graphStatuses, List.getElem?_map, hi2, hval]
  · intro msg
    unfold evalBinaryStatus
    cases ni.localHit <;> cases ni.remoteHit <;> cases ni.policyMatch <;> simp
  · have hne : invalidPackages g ≠ [] := List.ne_nil_of_mem hinvmem
    rw [resolutionOutcome, if_neg]
    simp [List.isEmpty_iff, hne]

/-- Witness for C7 on the test_validate_package_id_mode graph. -/
theorem invalid_dep_reported_not_propagated_witness :
    (graphStatuses pkgIdModeGraph).get? 1
      = some (evalBinaryStatus none false false true) ∧
    (∀ msg, evalBinaryStatus none false false true ≠ BinaryStatus.invalid msg) ∧
    ("dep/0.1", "Windows not supported") ∈ invalidPackages pkgIdModeGraph ∧
    resolutionOutcome pkgIdModeGraph
      = CommandOutcome.invalidConfiguration invalidPackagesMessage :=
  invalid_dep_reported_not_propagated pkgIdModeGraph 1 0
    ⟨"pkg/0.1", none, false, false, true, [0]⟩
    ⟨"dep/0.1", some "Windows not supported", false, false, true, []⟩
    "Windows not supported" (by decide) (by decide) (by decide) rfl rfl

/-- C8: under full package mode a dependency whose validation fails
leaves the dependent individually buildable: the dependent keeps status
Build, the failing dependency is reported in the aggregate
invalid-packages set, the overall exit code is the invalid-configuration
code, and the dependent hash input embeds the full dependency IDs. -/
theorem full_package_mode_dependent_buildable (g : List DepNode) (i j : Nat)
    (ni nj : DepNode) (r : String) (commands : List String) (cmd : String)
    (rest : List String) (ds : List String) (ops : List PkgIdOp) (m : Model)
    (hi : g.get? i = some ni) (hj : g.get? j = some nj) (hdep : j ∈ ni.deps)
    (hval : ni.validation = none) (hlocal : ni.localHit = false)
    (hforce : ni.policyMatch = true) (hjinv : nj.validation = some r)
    (hcmd : commands.contains cmd = true) :
    (graphStatuses g).get? i = some BinaryStatus.build ∧
    (nj.ref, r) ∈ invalidPackages g ∧
    cliRun commands (cmd :: rest) (fun _ _ => resolutionOutcome g)
      = ERROR_INVALID_CONFIGURATION ∧
    (computePackageId ops m (depContribution UnknownDepMode.fullPackageMode ds)).depIds
      = ds := by
  have hmem : nj ∈ g := by
    have := List.get?_eq_some.mp hj
    obtain ⟨hlt, hget⟩ := this
    exact hget ▸ List.get_mem g j hlt
  have hinvmem : (nj.ref, r) ∈ invalidPackages g :=
    List.mem_filterMap.mpr ⟨nj, hmem, by simp [hjinv]⟩
  have hcmd2 : cmd ∈ commands := by simpa using hcmd
  have hne : invalidPackages g ≠ [] := List.ne_nil_of_mem hinvmem
  refine ⟨?_, hinvmem, ?_, rfl⟩
  · have hi2 : g[i]? = some ni := by
      rw [← List.get?_eq_getElem?]
      exact hi
    rw [graphStatuses, List.get?_eq_getElem?, List.getElem?_map, hi2]
    simp [evalBinaryStatus, hval, hlocal, hforce]
  · have hout : resolutionOutcome g
        = CommandOutcome.invalidConfiguration invalidPackagesMessage := by
      rw [resolutionOutcome, if_neg]
      simp [List.isEmpty_iff, hne]
    simp [cliRun, hcmd2, hout]

/-- Witness for C8 on the test_validate_package_id_mode graph: pkg/0.1 is
Build, dep/0.1 is aggregated as invalid, and create exits 6. -/
theorem full_package_mode_dependent_buildable_witness :
    (graphStatuses pkgIdModeGraph).get? 1 = some BinaryStatus.build ∧
    ("dep/0.1", "Windows not supported") ∈ invalidPackages pkgIdModeGraph ∧
    cliRun ["create"] ["create"] (fun _ _ => resolutionOutcome pkgIdModeGraph)
      = ERROR_INVALID_CONFIGURATION ∧
    (computePackageId [] [] (depContribution UnknownDepMode.fullPackageMode
        ["ebec3dc6d7f6b907b3ada0c3d3cdc83613a2b715"])).depIds
      = ["ebec3dc6d7f6b907b3ada0c3d3cdc83613a2b715"] :=
  full_package_mode_dependent_buildable pkgIdModeGraph 1 0
    ⟨"pkg/0.1", none, false, false, true, [0]⟩
    ⟨"dep/0.1", some "Windows not supported", false, false, true, []⟩
    "Windows not supported" ["create"] "create" []
    ["ebec3dc6d7f6b907b3ada0c3d3cdc83613a2b715"] [] []
    rfl rfl (by decide) rfl rfl rfl rfl (by decide)
